import Mathlib

/-!
Verification of the propagation-network implementation (cell.py, merge.py,
interval.py, tms.py, propagator.py, cells.py).

The Python code is shallowly embedded: Python floats become the inductive
type `F` (NaN, the two infinities and finite rationals, with IEEE-754
comparison semantics as CPython exposes them), Python objects that flow
through `merge` become the inductive `Value`, exceptions become `Except` /
`Option` error components, and mutable state (cell content, neighbor lists,
the premise worldview) is passed explicitly.  Each definition mirrors one
Python function; comments cite the source file.
-/

namespace PropNet

/-! ## Python floats

CPython float semantics for the operations the interval code uses:
comparisons involving NaN are false, `max`/`min` are the builtin
two-argument folds, subtraction and multiplication follow IEEE-754.
-/

inductive F where
  | nan
  | ninf
  | inf
  | fin (q : ℚ)
deriving DecidableEq, Repr

def F.isNan : F → Bool
  | .nan => true
  | _ => false

/-- Python `a < b` on floats. -/
def fLt : F → F → Bool
  | .fin a, .fin b => decide (a < b)
  | .fin _, .inf => true
  | .ninf, .fin _ => true
  | .ninf, .inf => true
  | _, _ => false

/-- Python `a <= b` on floats. -/
def fLe : F → F → Bool
  | .fin a, .fin b => decide (a ≤ b)
  | .fin _, .inf => true
  | .ninf, .fin _ => true
  | .ninf, .ninf => true
  | .ninf, .inf => true
  | .inf, .inf => true
  | _, _ => false

/-- Python `a == b` on floats (NaN is not equal to itself). -/
def fEq : F → F → Bool
  | .fin a, .fin b => decide (a = b)
  | .inf, .inf => true
  | .ninf, .ninf => true
  | _, _ => false

/-- Python builtin `max(a, b)`: keeps `a` unless `b > a`. -/
def pymax (a b : F) : F := if fLt a b then b else a

/-- Python builtin `min(a, b)`: keeps `a` unless `b < a`. -/
def pymin (a b : F) : F := if fLt b a then b else a

/-- IEEE-754 subtraction as Python performs it. -/
def fSub : F → F → F
  | .fin a, .fin b => .fin (a - b)
  | .fin _, .inf => .ninf
  | .fin _, .ninf => .inf
  | .inf, .fin _ => .inf
  | .ninf, .fin _ => .ninf
  | .inf, .ninf => .inf
  | .ninf, .inf => .ninf
  | _, _ => .nan

/-- Python builtin `abs` on floats. -/
def fAbs : F → F
  | .fin a => .fin (if a < 0 then -a else a)
  | .inf => .inf
  | .ninf => .inf
  | .nan => .nan

/-- IEEE-754 multiplication as Python performs it. -/
def fMul : F → F → F
  | .fin a, .fin b => .fin (a * b)
  | .fin a, .inf => if 0 < a then .inf else if a < 0 then .ninf else .nan
  | .inf, .fin a => if 0 < a then .inf else if a < 0 then .ninf else .nan
  | .fin a, .ninf => if 0 < a then .ninf else if a < 0 then .inf else .nan
  | .ninf, .fin a => if 0 < a then .ninf else if a < 0 then .inf else .nan
  | .inf, .inf => .inf
  | .inf, .ninf => .ninf
  | .ninf, .inf => .ninf
  | .ninf, .ninf => .inf
  | _, _ => .nan

/-- Python `1.0 / x`.  `1.0 / 0.0` raises ZeroDivisionError; interval.py only
evaluates the reciprocal after the zero-spanning guard has excluded a zero
endpoint, so that branch is unreachable and is mapped to NaN here. -/
def fInv : F → F
  | .fin q => if q = 0 then .nan else .fin q⁻¹
  | .inf => .fin 0
  | .ninf => .fin 0
  | .nan => .nan

/-! ## Intervals (interval.py) -/

/-- The stored fields of a Python `Interval` object. -/
structure IntervalF where
  low : F
  high : F
deriving DecidableEq, Repr

/-- `Interval.__init__`: if `low > high`, both endpoints are set to NaN to
represent the empty interval. -/
def mkInterval (low high : F) : IntervalF :=
  if fLt high low then ⟨.nan, .nan⟩ else ⟨low, high⟩

/-- `Interval.is_empty`. -/
def IntervalF.is_empty (i : IntervalF) : Bool := i.low.isNan || i.high.isNan

/-- Every interval built by `Interval.__init__` satisfies this; the raw
structure would also admit pairs like ⟨5, 3⟩ that the constructor rewrites
to NaN endpoints. -/
def IntervalF.wf (i : IntervalF) : Bool := !(fLt i.high i.low)

/-- `Interval.__eq__`: two empty intervals are equal; otherwise endpoints
are compared with float equality. -/
def intervalEq (i j : IntervalF) : Bool :=
  if i.is_empty && j.is_empty then true
  else fEq i.low j.low && fEq i.high j.high

/-- `EMPTY_INTERVAL`. -/
def EMPTY_INTERVAL : IntervalF := ⟨.nan, .nan⟩

/-- `Interval.intersect`. -/
def intersect (i1 i2 : IntervalF) : IntervalF :=
  if i1.is_empty || i2.is_empty then ⟨.nan, .nan⟩
  else mkInterval (pymax i1.low i2.low) (pymin i1.high i2.high)

/-- Python `min(p1, p2, p3, p4)`. -/
def pymin4 (a b c d : F) : F := pymin (pymin (pymin a b) c) d

/-- Python `max(p1, p2, p3, p4)`. -/
def pymax4 (a b c d : F) : F := pymax (pymax (pymax a b) c) d

/-- `mul_intervals`. -/
def mul_intervals (i1 i2 : IntervalF) : IntervalF :=
  if i1.is_empty || i2.is_empty then EMPTY_INTERVAL
  else
    let p1 := fMul i1.low i2.low
    let p2 := fMul i1.low i2.high
    let p3 := fMul i1.high i2.low
    let p4 := fMul i1.high i2.high
    mkInterval (pymin4 p1 p2 p3 p4) (pymax4 p1 p2 p3 p4)

/-- `div_intervals`: when the divisor spans zero the code prints a warning
and returns `Interval(-inf, inf)` (or `EMPTY_INTERVAL` for the degenerate
divisor `[0, 0]`); otherwise it multiplies by the reciprocal interval. -/
def div_intervals (i1 i2 : IntervalF) : IntervalF :=
  if i1.is_empty || i2.is_empty then EMPTY_INTERVAL
  else if fLe i2.low (.fin 0) && fLe (.fin 0) i2.high then
    if fEq i2.low (.fin 0) && fEq i2.high (.fin 0) then EMPTY_INTERVAL
    else mkInterval .ninf .inf
  else mul_intervals i1 (mkInterval (fInv i2.high) (fInv i2.low))

/-! ## Premises, supports and supported values (tms.py)

A `Premise` object has a unique id (`Premise._next_id` is bumped on each
construction) and a name; Python hashes and compares premises by identity,
which coincides with structural equality since ids are unique.  A `Support`
is a Python set of premises, modelled as a `Finset`.
-/

structure Premise where
  pid : ℕ
  name : String
deriving DecidableEq, Repr

/-- Base values: the scalar and interval facts that cells, supported values
and TMS entries carry (nothing.py, interval.py).  `contra` is the sentinel
`THE_CONTRADICTION`, which Python compares by identity. -/
inductive BV where
  | nothing
  | contra
  | num (x : F)
  | intv (i : IntervalF)
deriving DecidableEq, Repr

/-- Python `==` on base values: `Nothing` equals any `Nothing`,
`THE_CONTRADICTION` only itself, numbers by float equality, intervals by
`Interval.__eq__`; cross-type comparisons are false. -/
def bvEq : BV → BV → Bool
  | .nothing, .nothing => true
  | .contra, .contra => true
  | .num a, .num b => fEq a b
  | .intv i, .intv j => intervalEq i j
  | _, _ => false

/-- `ValueWithSupport` (the `v&s` record of tms.py). -/
structure VS where
  value : BV
  support : Finset Premise
deriving DecidableEq

/-- The record stored by the `TMS` class: its list of `values`. -/
structure TMSRec where
  entries : List VS
deriving DecidableEq

/-- The universe of objects the merge machinery dispatches on.  The data
regime of the system is stratified exactly as spec section 3 describes it:
raw base values, `ValueWithSupport` wrappers over base values, and TMS
records holding `ValueWithSupport` entries. -/
inductive Value where
  | base (b : BV)
  | vsV (v : VS)
  | tmsV (t : TMSRec)
deriving DecidableEq

/-- The `NOTHING` singleton as a `Value`. -/
def vNothing : Value := .base .nothing

/-- `THE_CONTRADICTION` as a `Value`. -/
def vContra : Value := .base .contra

/-- Python `==` at the `Value` level, as `Cell.add_content` uses it in
`merged == old_value`: base values by the rules of `bvEq`;
`ValueWithSupport` and `TMS` define no `__eq__`, so Python falls back to
object identity.  Every reachable identity-true comparison is between a
merge result and the very operand it returned, which is structural equality
here; the converse divergence would need two structurally equal but
distinct wrapper objects, which the merge code never compares. -/
def pyEqV : Value → Value → Bool
  | .base a, .base b => bvEq a b
  | .vsV v, .vsV w => decide (v = w)
  | .tmsV s, .tmsV t => decide (s = t)
  | _, _ => false

/-! ## Merge algebra (merge.py) -/

/-- The tolerance `1e-9` of the interval merge handler. -/
def tol : F := .fin (1 / 1000000000)

/-- The two `abs(... - ...) < tolerance` endpoint comparisons of the
`_merge_dispatch(Interval, Interval)` handler, comparing a candidate
interval against one operand. -/
def withinTol (ni i : IntervalF) : Bool :=
  fLt (fAbs (fSub ni.low i.low)) tol && fLt (fAbs (fSub ni.high i.high)) tol

/-- `_merge_dispatch(Interval, Interval)`: intersect; empty means
contradiction; a result within `1e-9` of an operand returns that operand;
otherwise the new, tighter interval. -/
def mergeIvIv (content increment : IntervalF) : BV :=
  let ni := intersect content increment
  if ni.is_empty then .contra
  else if withinTol ni content then .intv content
  else if withinTol ni increment then .intv increment
  else .intv ni

/-- `_merge_dispatch` restricted to base values: the `(Interval, Interval)`,
`(Interval, number)`, `(number, Interval)` handlers and the
`(object, object)` default of merge.py. -/
def bmergeDispatch : BV → BV → BV
  | .intv i, .intv j => mergeIvIv i j
  | .intv i, .num q => if fLe i.low q && fLe q i.high then .num q else .contra
  | .num q, .intv j => if fLe j.low q && fLe q j.high then .num q else .contra
  | a, b => if bvEq a b then a else .contra

/-- `merge` of merge.py applied to two base values: the `NOTHING` identity
checks run before the dispatch system.  `v_and_s_merge` and `implies` call
the full `merge` on the base values inside supported values, which is this
function. -/
def mergeBV (a b : BV) : BV :=
  if a = .nothing then b
  else if b = .nothing then a
  else bmergeDispatch a b

/-- `implies(v1, v2)` of tms.py: `merge(v1, v2) == v2`. -/
def implies (v1 v2 : BV) : Bool := bvEq (mergeBV v1 v2) v2

/-- `more_informative_support(s1, s2)` of tms.py: s1's premises are a
subset of s2's and strictly fewer. -/
def more_informative_support (s1 s2 : VS) : Bool :=
  decide (s1.support ⊆ s2.support) && decide (s1.support.card < s2.support.card)

/-- `merge_supports` of merge.py: union of the two premise sets. -/
def merge_supports (v1 v2 : VS) : Finset Premise := v1.support ∪ v2.support

/-- `v_and_s_merge` of merge.py: merge the base values; if the merge
confirms the first value, keep whichever support is more informative; if
it equals the second value the new fact overrides; otherwise a genuinely
new fact supported by both premise sets. -/
def v_and_s_merge (v1 v2 : VS) : VS :=
  let merged := mergeBV v1.value v2.value
  if bvEq merged v1.value then
    if bvEq (mergeBV v2.value merged) merged then
      if more_informative_support v2 v1 then v2 else v1
    else v1
  else if bvEq merged v2.value then v2
  else ⟨merged, merge_supports v1 v2⟩

/-- `subsumes(vs1, vs2)` of tms.py. -/
def subsumes (a b : VS) : Bool :=
  implies a.value b.value && decide (a.support ⊆ b.support)

/-! ## TMS assimilation and merge (tms.py)

The `TMS` class defines neither `__iter__` nor `__getitem__`, so any
`for v_and_s in tms` over a `TMS` instance raises `TypeError` in Python.
`tms_assimilate_one` and `strongest_consequence` iterate their first
argument, so they work when handed the plain entry list but raise when
handed the `TMS` record itself — which is exactly what `tms_merge` hands
them.
-/

inductive PyErr where
  | typeError
deriving DecidableEq, Repr

instance {ε α : Type} [DecidableEq ε] [DecidableEq α] : DecidableEq (Except ε α) :=
  fun a b =>
    match a, b with
    | .ok x, .ok y =>
      if h : x = y then .isTrue (by rw [h]) else .isFalse (fun hh => h (Except.ok.inj hh))
    | .error x, .error y =>
      if h : x = y then .isTrue (by rw [h]) else .isFalse (fun hh => h (Except.error.inj hh))
    | .ok _, .error _ => .isFalse (fun hh => Except.noConfusion hh)
    | .error _, .ok _ => .isFalse (fun hh => Except.noConfusion hh)

/-- `tms_assimilate_one(tms, v_and_s)` on an entry list (the form the
claim and the dissertation algorithm speak about): no-op when an existing
entry subsumes the new fact, else prepend it and drop the entries it
subsumes.  `old_v_and_s not in subsumed` membership uses Python `==`,
which is object identity for `ValueWithSupport`, so an entry survives
exactly when the new fact does not subsume it. -/
def tms_assimilate_one (tms : List VS) (e : VS) : List VS :=
  if tms.any (fun old => subsumes old e) then tms
  else e :: tms.filter (fun old => !subsumes e old)

/-- `strongest_consequence` applied to a `TMS` instance, as `tms_merge`
does: the list comprehension iterates the non-iterable `TMS` object and
raises `TypeError` before reading any entry. -/
def strongest_consequence_obj (_t : TMSRec) : Except PyErr Value :=
  .error .typeError

/-- `tms_assimilate(tms, stuff)` with `tms` a `TMS` instance, as
`tms_merge` calls it: `NOTHING` and the default case (which a `TMS`-typed
`stuff` falls into, since only `NOTHING`, `ValueWithSupport` and `list`
are tested) return `tms` unchanged; a `ValueWithSupport` is forwarded to
`tms_assimilate_one`, which iterates the `TMS` instance and raises
`TypeError`. -/
def tms_assimilate (tms : TMSRec) (stuff : Value) : Except PyErr TMSRec :=
  match stuff with
  | .base .nothing => .ok tms
  | .vsV _ => .error .typeError
  | _ => .ok tms

/-- `tms_merge(tms1, tms2)` of tms.py. -/
def tms_merge (t1 t2 : TMSRec) : Except PyErr Value := do
  let candidate ← tms_assimilate t1 (.tmsV t2)
  let consequence ← strongest_consequence_obj candidate
  let result ← tms_assimilate candidate consequence
  pure (.tmsV result)

/-- The wrapping `_merge_dispatch(TMS, object)` / `(object, TMS)` performs
before calling `tms_merge`: a `ValueWithSupport` becomes `make_tms([x])`,
any other value is wrapped with an empty support first. -/
def toTMS : Value → TMSRec
  | .vsV v => ⟨[v]⟩
  | .base b => ⟨[⟨b, ∅⟩]⟩
  | .tmsV t => t

/-- `merge` of merge.py over the full value universe.  The `NOTHING`
identity checks precede dispatch; `TMS` handlers are more specific than
the `ValueWithSupport`-vs-`object` ones for the pairs both could match
(either route reaches `tms_merge` and raises `TypeError`). -/
def merge (content increment : Value) : Except PyErr Value :=
  if content = vNothing then .ok increment
  else if increment = vNothing then .ok content
  else match content, increment with
    | .tmsV t1, .tmsV t2 => tms_merge t1 t2
    | .tmsV t1, x => tms_merge t1 (toTMS x)
    | x, .tmsV t2 => tms_merge (toTMS x) t2
    | .vsV v1, .vsV v2 => .ok (.vsV (v_and_s_merge v1 v2))
    | .vsV v1, .base b => .ok (.vsV (v_and_s_merge v1 ⟨b, ∅⟩))
    | .base b, .vsV v2 => .ok (.vsV (v_and_s_merge ⟨b, ∅⟩ v2))
    | .base a, .base b => .ok (.base (bmergeDispatch a b))

/-- `contradictory` of nothing.py: `THE_CONTRADICTION` itself, or anything
with a true `is_empty()` — of the types in the system only `Interval` has
an `is_empty` method. -/
def contradictory : Value → Bool
  | .base .contra => true
  | .base (.intv i) => i.is_empty
  | _ => false

/-! ## Cells (cell.py — the Cell every live module imports) -/

structure CellS where
  name : String
  content : Value
  neighbors : List ℕ
deriving DecidableEq

/-- The ValueError `Cell.add_content` raises carries the cell name and the
two irreconcilable values in its message; `typeError` records an exception
propagating out of `generic_merge` uncaught. -/
inductive CellErr where
  | valueError (cellName : String) (old increment : Value)
  | typeError
deriving DecidableEq

/-- Outcome of one `Cell.add_content` call: the cell state afterwards,
the exception raised if any, and whether `_alert_propagators` ran (which
alerts every registered neighbor). -/
structure AResult where
  cell : CellS
  err : Option CellErr
  alerted : Bool
deriving DecidableEq

/-- `Cell.add_content` of cell.py, statement by statement: an empty cell
stores the increment and alerts its propagators unconditionally; otherwise
the increment is merged into the old content, a contradictory merge raises
before any mutation, an unchanged merge returns silently, and anything
else is stored and alerted. -/
def add_content (c : CellS) (increment : Value) : AResult :=
  if c.content = vNothing then
    ⟨{ c with content := increment }, none, true⟩
  else
    match merge c.content increment with
    | .error _ => ⟨c, some .typeError, false⟩
    | .ok merged =>
      if contradictory merged then
        ⟨c, some (.valueError c.name c.content increment), false⟩
      else if pyEqV merged c.content then ⟨c, none, false⟩
      else ⟨{ c with content := merged }, none, true⟩

namespace CellPy

/-- `Cell.new_neighbor` of cell.py: append the propagator if absent.  It
performs no alert; the boolean records whether the newly registered
propagator was alerted by this call (always false — in this
implementation `Propagator.__init__` alerts the propagator itself after
wiring). -/
def new_neighbor (c : CellS) (p : ℕ) : CellS × Bool :=
  if c.neighbors.contains p then (c, false)
  else ({ c with neighbors := c.neighbors ++ [p] }, false)

end CellPy

namespace CellsProto

/-- `Cell.new_neighbor` of the standalone prototype cells.py: append the
propagator if absent and call `alert_propagator(neighbor)` on it; the
boolean records that alert. -/
def new_neighbor (c : CellS) (p : ℕ) : CellS × Bool :=
  if c.neighbors.contains p then (c, false)
  else ({ c with neighbors := c.neighbors ++ [p] }, true)

end CellsProto

/-! ## Propagator alerting (propagator.py) -/

/-- What one run of a propagator's `operation()` does: return normally,
raise `ValueError` (the contradiction error `add_content` raises), or
raise an exception of any other class. -/
inductive RunOutcome where
  | normal
  | valueError (msg : String)
  | otherError
deriving DecidableEq

/-- Result of `Propagator.alert`: the contradiction message it caught and
reported via print, if any, and whether an exception escaped the call. -/
structure AlertResult where
  reported : Option String
  raised : Bool
deriving DecidableEq

/-- `Propagator.alert` of propagator.py: runs the operation inside
`try ... except ValueError`, printing caught contradictions; exceptions of
any other class are not handled and propagate to the caller. -/
def Propagator.alert : RunOutcome → AlertResult
  | .normal => ⟨none, false⟩
  | .valueError m => ⟨some m, false⟩
  | .otherError => ⟨none, true⟩

/-! ## Worldview management (tms.py)

`_current_worldview` is a Python set of Premise objects, modelled as a
list of distinct premises in iteration order.  `bring_in` and `kick_out`
accept either a `Premise` object or a name string.  The boolean each
returns below records whether `alert_all_propagators()` was called.
-/

inductive PremiseRef where
  | obj (p : Premise)
  | byName (s : String)
deriving DecidableEq

/-- `premise_in` of tms.py: a string matches any believed premise with
that name; a premise object is looked up in the set. -/
def premise_in (w : List Premise) : PremiseRef → Bool
  | .byName s => w.any (fun p => p.name == s)
  | .obj p => w.contains p

/-- `bring_in` of tms.py: a no-op when the premise is already believed;
for a string it only alerts all propagators, leaving the worldview
unchanged (the code's commented simplification: it has no registry to
resolve a name to a premise object); for a premise object it is added and
all propagators are alerted. -/
def bring_in (w : List Premise) (pr : PremiseRef) : List Premise × Bool :=
  if premise_in w pr then (w, false)
  else match pr with
    | .byName _ => (w, true)
    | .obj p => (w ++ [p], true)

/-- `kick_out` of tms.py: for a string, remove the first believed premise
with that name and alert, or fall through silently when none matches; for
a premise object, remove and alert only if it is believed. -/
def kick_out (w : List Premise) (pr : PremiseRef) : List Premise × Bool :=
  match pr with
  | .byName s =>
    match w.find? (fun p => p.name == s) with
    | some p => (w.erase p, true)
    | none => (w, false)
  | .obj p => if w.contains p then (w.erase p, true) else (w, false)

/-! ## Antichain predicate for TMS entry lists -/

/-- No entry of the list subsumes another entry (spec section 3: a TMS is
an antichain under `subsumes`). -/
def antichain : List VS → Bool
  | [] => true
  | a :: rest =>
    rest.all (fun b => !subsumes a b && !subsumes b a) && antichain rest

/-- Values whose self-merge reproduces them: base values other than NaN
scalars and empty intervals, and supported values over such base values.
TMS values never qualify (their merge raises TypeError). -/
def selfMergeOK : Value → Bool
  | .base b => decide (mergeBV b b = b)
  | .vsV v => decide (mergeBV v.value v.value = v.value)
  | .tmsV _ => false

/-! ## Helper lemmas -/

theorem fLt_eq_false_of_fLe {a b : F} (h : fLe a b = true) : fLt b a = false := by
  cases a <;> cases b <;> simp_all [fLe, fLt]

theorem isNan_eq_false_of_fLe {a b : F} (h : fLe a b = true) :
    a.isNan = false ∧ b.isNan = false := by
  cases a <;> cases b <;> simp_all [fLe, F.isNan]

theorem fEq_self_of_not_nan {a : F} (h : a.isNan = false) : fEq a a = true := by
  cases a <;> simp_all [F.isNan, fEq]

theorem bvEq_self_of_selfmerge {b : BV} (h : mergeBV b b = b) : bvEq b b = true := by
  cases b with
  | nothing => rfl
  | contra => rfl
  | num x =>
    by_cases hb : bvEq (.num x) (.num x) = true
    · exact hb
    · simp [mergeBV, bmergeDispatch, hb] at h
  | intv i =>
    by_cases he : i.is_empty = true
    · have hint : intersect i i = ⟨F.nan, F.nan⟩ := by simp [intersect, he]
      have hm : mergeIvIv i i = .contra := by
        simp [mergeIvIv, hint, IntervalF.is_empty, F.isNan]
      simp [mergeBV, bmergeDispatch, hm] at h
    · have he' : i.is_empty = false := by simp_all
      have hl : i.low.isNan = false ∧ i.high.isNan = false := by
        simpa [IntervalF.is_empty, Bool.or_eq_false_iff] using he'
      simp [bvEq, intervalEq, he', fEq_self_of_not_nan hl.1, fEq_self_of_not_nan hl.2]

theorem merge_base_base (a b : BV) (ha : a ≠ .nothing) (hb : b ≠ .nothing) :
    merge (.base a) (.base b) = .ok (.base (bmergeDispatch a b)) := by
  unfold merge
  rw [if_neg (by simp [vNothing, ha]), if_neg (by simp [vNothing, hb])]

theorem all_filter_of_all {α : Type} {q p : α → Bool} {l : List α}
    (h : l.all q = true) : (l.filter p).all q = true := by
  rw [List.all_eq_true] at h ⊢
  intro x hx
  exact h x (List.mem_filter.mp hx).1

theorem antichain_filter (p : VS → Bool) :
    ∀ l : List VS, antichain l = true → antichain (l.filter p) = true := by
  intro l
  induction l with
  | nil => intro _; rfl
  | cons a t ih =>
    intro h
    rw [antichain, Bool.and_eq_true] at h
    rw [List.filter]
    cases hp : p a with
    | false => exact ih h.2
    | true =>
      rw [antichain, Bool.and_eq_true]
      exact ⟨all_filter_of_all h.1, ih h.2⟩

/-! ## Claim theorems -/

/-- C1 counterexample: dividing the non-empty interval [1, 2] by the
non-empty zero-spanning interval [-1, 1] does not return Nothing — it
returns the unbounded interval [-inf, inf] (after printing a warning). -/
theorem div_by_zero_spanning_returns_unbounded :
    div_intervals ⟨.fin 1, .fin 2⟩ ⟨.fin (-1), .fin 1⟩ = ⟨F.ninf, F.inf⟩ ∧
    (Value.base (.intv (div_intervals ⟨.fin 1, .fin 2⟩ ⟨.fin (-1), .fin 1⟩)) ≠ vNothing) := by
  constructor <;> decide

/-- C1 amended: for non-empty operands whose divisor spans zero,
`div_intervals` never returns Nothing and never raises; it returns
`EMPTY_INTERVAL` when the divisor is exactly [0, 0] and the unbounded
interval [-inf, inf] otherwise. -/
theorem div_intervals_zero_spanning_cases (i1 i2 : IntervalF)
    (h1 : i1.is_empty = false) (h2 : i2.is_empty = false)
    (hlo : fLe i2.low (.fin 0) = true) (hhi : fLe (.fin 0) i2.high = true) :
    (¬(fEq i2.low (.fin 0) = true ∧ fEq i2.high (.fin 0) = true) →
       div_intervals i1 i2 = ⟨F.ninf, F.inf⟩) ∧
    ((fEq i2.low (.fin 0) = true ∧ fEq i2.high (.fin 0) = true) →
       div_intervals i1 i2 = EMPTY_INTERVAL) := by
  constructor
  · intro hne
    have hz : (fEq i2.low (.fin 0) && fEq i2.high (.fin 0)) = false := by
      cases h : fEq i2.low (.fin 0) with
      | false => simp
      | true =>
        cases h' : fEq i2.high (.fin 0) with
        | false => simp
        | true => exact absurd ⟨h, h'⟩ hne
    simp [div_intervals, h1, h2, hlo, hhi, hz, mkInterval, fLt]
  · intro hz
    simp [div_intervals, h1, h2, hlo, hhi, hz.1, hz.2]

/-- C1 amended, witness instance. -/
theorem div_intervals_zero_spanning_cases_witness :
    div_intervals ⟨.fin 3, .fin 4⟩ ⟨.fin (-2), .fin 5⟩ = ⟨F.ninf, F.inf⟩ :=
  (div_intervals_zero_spanning_cases ⟨.fin 3, .fin 4⟩ ⟨.fin (-2), .fin 5⟩
    (by decide) (by decide) (by decide) (by decide)).1 (by decide)

/-- C6: the TMS merge path contradicts its own docstring.  For every pair
of TMS records, `tms_merge` raises TypeError: `tms_assimilate` tests
`stuff` only against NOTHING, ValueWithSupport and list, so a TMS-typed
second argument is silently dropped, and `strongest_consequence` then
iterates the non-iterable TMS instance. -/
theorem tms_merge_always_raises_type_error (t1 t2 : TMSRec) :
    tms_merge t1 t2 = .error .typeError := rfl

/-- C7: `add_content(NOTHING)` on an empty cell is not a no-op — the
content stays NOTHING but every neighboring propagator is alerted,
because the empty-cell branch of `Cell.add_content` stores and alerts
unconditionally without testing the increment against NOTHING. -/
theorem add_content_nothing_alerts_when_empty :
    add_content ⟨"a", vNothing, [0]⟩ vNothing =
      ⟨⟨"a", vNothing, [0]⟩, none, true⟩ := rfl

/-- C8 counterexample: `Cell.new_neighbor` of cell.py (the Cell every live
module imports) registers a propagator on a cell that already has content
without alerting it. -/
theorem new_neighbor_cell_py_does_not_alert :
    CellPy.new_neighbor ⟨"c", .base (.num (.fin 5)), []⟩ 3 =
      (⟨"c", .base (.num (.fin 5)), [3]⟩, false) := rfl

/-- C9 counterexample: `Propagator.alert` only catches ValueError; an
exception of any other class raised by the operation propagates out of
`alert` instead of being caught and reported. -/
theorem alert_does_not_catch_other_errors :
    Propagator.alert .otherError = ⟨none, true⟩ := rfl

/-- C9 amended: `Propagator.alert` catches and reports exactly the
ValueError contradictions and returns normally for them; an exception of
any other class is the only way an alert call raises. -/
theorem alert_catches_value_error_only :
    (∀ m, Propagator.alert (.valueError m) = ⟨some m, false⟩) ∧
    (∀ o, (Propagator.alert o).raised = true ↔ o = .otherError) := by
  refine ⟨fun m => rfl, fun o => ?_⟩
  cases o <;> simp [Propagator.alert]

/-- C10 counterexample: `bring_in` on a premise name that matches no
believed premise alerts every propagator while leaving the worldview
unchanged — an alert with no believed/disbelieved transition. -/
theorem bring_in_unknown_name_alerts_without_transition :
    bring_in [] (.byName "A") = ([], true) ∧
    premise_in [] (.byName "A") = false := by
  constructor <;> rfl

/-- C2: when a cell already has content and merging the increment yields a
contradiction, `add_content` raises the ValueError naming the cell and the
two irreconcilable values, the content is untouched, and no propagator is
alerted. -/
theorem add_content_contradiction_raises_and_preserves
    (c : CellS) (x m : Value)
    (h1 : c.content ≠ vNothing)
    (h2 : merge c.content x = .ok m)
    (h3 : contradictory m = true) :
    add_content c x = ⟨c, some (.valueError c.name c.content x), false⟩ := by
  unfold add_content
  rw [if_neg h1, h2]
  simp [h3]

/-- C2 witness instance. -/
theorem add_content_contradiction_witness :
    add_content ⟨"x", .base (.num (.fin 1)), [0]⟩ (.base (.num (.fin 2))) =
      ⟨⟨"x", .base (.num (.fin 1)), [0]⟩,
       some (.valueError "x" (.base (.num (.fin 1))) (.base (.num (.fin 2)))), false⟩ :=
  add_content_contradiction_raises_and_preserves _ _ vContra
    (by decide) (by decide) (by decide)

/-- C3 counterexample: the empty interval is an Interval value whose merge
with itself is the Contradiction, not itself. -/
theorem merge_empty_interval_self_not_idempotent :
    merge (.base (.intv EMPTY_INTERVAL)) (.base (.intv EMPTY_INTERVAL)) ≠
      .ok (.base (.intv EMPTY_INTERVAL)) := by decide

/-- C3 amended: `merge(Nothing, x) = x` and `merge(x, Nothing) = x` hold
for every value; `merge(x, x) = x` holds for every self-mergeable value —
scalars other than NaN, non-empty intervals, and supported values over
such base values — while the self-merge of an empty interval or NaN is the
Contradiction and the self-merge of a TMS raises TypeError. -/
theorem merge_nothing_identity_and_conditional_idempotence :
    (∀ x : Value, merge vNothing x = .ok x ∧ merge x vNothing = .ok x) ∧
    (∀ x : Value, selfMergeOK x = true → merge x x = .ok x) := by
  constructor
  · intro x
    refine ⟨by simp [merge], ?_⟩
    by_cases h : x = vNothing
    · subst h; simp [merge]
    · simp [merge, h]
  · intro x h
    match x with
    | .base b =>
      by_cases hb : (Value.base b) = vNothing
      · rw [hb]; simp [merge]
      · have h' : mergeBV b b = b := by simpa [selfMergeOK] using h
        have hbn : b ≠ .nothing := by
          intro hn; exact hb (by simp [vNothing, hn])
        have hd : bmergeDispatch b b = b := by
          unfold mergeBV at h'; rw [if_neg hbn, if_neg hbn] at h'; exact h'
        simp [merge, hb, hd]
    | .vsV v =>
      have h' : mergeBV v.value v.value = v.value := by simpa [selfMergeOK] using h
      have hb : bvEq v.value v.value = true := bvEq_self_of_selfmerge h'
      have hm : v_and_s_merge v v = v := by
        unfold v_and_s_merge
        simp [h', hb]
      simp [merge, vNothing, hm]
    | .tmsV t => simp [selfMergeOK] at h

/-- C3 amended, witness instance. -/
theorem merge_conditional_idempotence_witness :
    merge (.base (.num (.fin 5))) (.base (.num (.fin 5))) = .ok (.base (.num (.fin 5))) :=
  merge_nothing_identity_and_conditional_idempotence.2 _ (by decide)

/-- C4 counterexample: merging [0, 1 + 1e-10] with [0, 1] lands within the
1e-9 tolerance of the first operand, so merge returns that operand — whose
upper endpoint differs from min(b, d) — and not the exact intersection
Interval(max(a, c), min(b, d)). -/
theorem merge_intervals_tolerance_not_exact_intersection :
    merge (.base (.intv ⟨.fin 0, .fin (1 + 1/10000000000)⟩)) (.base (.intv ⟨.fin 0, .fin 1⟩)) =
      .ok (.base (.intv ⟨.fin 0, .fin (1 + 1/10000000000)⟩)) ∧
    merge (.base (.intv ⟨.fin 0, .fin (1 + 1/10000000000)⟩)) (.base (.intv ⟨.fin 0, .fin 1⟩)) ≠
      .ok (.base (.intv ⟨pymax (F.fin 0) (F.fin 0),
                         pymin (F.fin (1 + 1/10000000000)) (F.fin 1)⟩)) := by
  have hpmax : pymax (F.fin 0) (F.fin 0) = F.fin 0 := by norm_num [pymax, fLt]
  have hpmin : pymin (F.fin (1 + 1/10000000000)) (F.fin 1) = F.fin 1 := by
    norm_num [pymin, fLt]
  have hint : intersect ⟨.fin 0, .fin (1 + 1/10000000000)⟩ ⟨.fin 0, .fin 1⟩ =
      ⟨F.fin 0, F.fin 1⟩ := by
    unfold intersect
    rw [hpmax, hpmin, if_neg (by decide)]
    unfold mkInterval
    rw [if_neg (by decide)]
  have hw1 : withinTol ⟨F.fin 0, F.fin 1⟩ ⟨.fin 0, .fin (1 + 1/10000000000)⟩ = true := by
    norm_num [withinTol, fSub, fAbs, fLt, tol]
  have hm : mergeIvIv ⟨.fin 0, .fin (1 + 1/10000000000)⟩ ⟨.fin 0, .fin 1⟩ =
      .intv ⟨.fin 0, .fin (1 + 1/10000000000)⟩ := by
    unfold mergeIvIv
    rw [hint, if_neg (by decide), if_pos hw1]
  have hmerge : merge (.base (.intv ⟨.fin 0, .fin (1 + 1/10000000000)⟩))
      (.base (.intv ⟨.fin 0, .fin 1⟩)) =
      .ok (.base (.intv ⟨.fin 0, .fin (1 + 1/10000000000)⟩)) := by
    rw [merge_base_base _ _ (by decide) (by decide)]
    rw [show bmergeDispatch (BV.intv ⟨.fin 0, .fin (1 + 1/10000000000)⟩)
          (BV.intv ⟨.fin 0, .fin 1⟩) =
        mergeIvIv ⟨.fin 0, .fin (1 + 1/10000000000)⟩ ⟨.fin 0, .fin 1⟩ from rfl, hm]
  refine ⟨hmerge, ?_⟩
  rw [hmerge, hpmax, hpmin]
  intro hcon
  simp only [Except.ok.injEq, Value.base.injEq, BV.intv.injEq, IntervalF.mk.injEq,
    F.fin.injEq] at hcon
  exact absurd hcon.2 (by norm_num)

/-- C4 amended: for non-empty operands, with mx = max(a, c) and
mn = min(b, d): an empty intersection (mn < mx) merges to the
Contradiction; otherwise the result is the first operand when [mx, mn] is
within 1e-9 of it on both endpoints, else the second operand when within
1e-9 of it, else exactly Interval(mx, mn). -/
theorem merge_intervals_characterization (i1 i2 : IntervalF) (mx mn : F)
    (h1 : i1.is_empty = false) (h2 : i2.is_empty = false)
    (hmx : mx = pymax i1.low i2.low) (hmn : mn = pymin i1.high i2.high) :
    (fLt mn mx = true → merge (.base (.intv i1)) (.base (.intv i2)) = .ok vContra) ∧
    (fLe mx mn = true → withinTol ⟨mx, mn⟩ i1 = true →
       merge (.base (.intv i1)) (.base (.intv i2)) = .ok (.base (.intv i1))) ∧
    (fLe mx mn = true → withinTol ⟨mx, mn⟩ i1 = false → withinTol ⟨mx, mn⟩ i2 = true →
       merge (.base (.intv i1)) (.base (.intv i2)) = .ok (.base (.intv i2))) ∧
    (fLe mx mn = true → withinTol ⟨mx, mn⟩ i1 = false → withinTol ⟨mx, mn⟩ i2 = false →
       merge (.base (.intv i1)) (.base (.intv i2)) = .ok (.base (.intv ⟨mx, mn⟩))) := by
  have hred : merge (.base (.intv i1)) (.base (.intv i2)) = .ok (.base (mergeIvIv i1 i2)) := by
    simp [merge, vNothing, bmergeDispatch]
  have hint : intersect i1 i2 = mkInterval mx mn := by
    simp [intersect, h1, h2, hmx, hmn]
  refine ⟨?_, ?_, ?_, ?_⟩
  · intro hlt
    have hmk : mkInterval mx mn = ⟨.nan, .nan⟩ := by simp [mkInterval, hlt]
    have hm : mergeIvIv i1 i2 = .contra := by
      simp [mergeIvIv, hint, hmk, IntervalF.is_empty, F.isNan]
    rw [hred, hm]; rfl
  · intro hle htol
    have hmk : mkInterval mx mn = ⟨mx, mn⟩ := by
      simp [mkInterval, fLt_eq_false_of_fLe hle]
    have hne : IntervalF.is_empty ⟨mx, mn⟩ = false := by
      obtain ⟨ha, hb⟩ := isNan_eq_false_of_fLe hle
      simp [IntervalF.is_empty, ha, hb]
    have hm : mergeIvIv i1 i2 = .intv i1 := by
      simp [mergeIvIv, hint, hmk, hne, htol]
    rw [hred, hm]
  · intro hle htol1 htol2
    have hmk : mkInterval mx mn = ⟨mx, mn⟩ := by
      simp [mkInterval, fLt_eq_false_of_fLe hle]
    have hne : IntervalF.is_empty ⟨mx, mn⟩ = false := by
      obtain ⟨ha, hb⟩ := isNan_eq_false_of_fLe hle
      simp [IntervalF.is_empty, ha, hb]
    have hm : mergeIvIv i1 i2 = .intv i2 := by
      simp [mergeIvIv, hint, hmk, hne, htol1, htol2]
    rw [hred, hm]
  · intro hle htol1 htol2
    have hmk : mkInterval mx mn = ⟨mx, mn⟩ := by
      simp [mkInterval, fLt_eq_false_of_fLe hle]
    have hne : IntervalF.is_empty ⟨mx, mn⟩ = false := by
      obtain ⟨ha, hb⟩ := isNan_eq_false_of_fLe hle
      simp [IntervalF.is_empty, ha, hb]
    have hm : mergeIvIv i1 i2 = .intv ⟨mx, mn⟩ := by
      simp [mergeIvIv, hint, hmk, hne, htol1, htol2]
    rw [hred, hm]

/-- C4 amended, witness instance: [-inf, 2] merged with [-inf, 1] (within
tolerance of neither operand, since -inf minus -inf is NaN) gives exactly
Interval(max, min) = [-inf, 1]. -/
theorem merge_intervals_characterization_witness :
    merge (.base (.intv ⟨F.ninf, .fin 2⟩)) (.base (.intv ⟨F.ninf, .fin 1⟩)) =
      .ok (.base (.intv ⟨F.ninf, .fin 1⟩)) :=
  (merge_intervals_characterization ⟨F.ninf, .fin 2⟩ ⟨F.ninf, .fin 1⟩ F.ninf (.fin 1)
     (by decide) (by decide) (by decide) (by decide)).2.2.2
    (by decide) (by decide) (by decide)

/-- C5: assimilating one supported value into an antichain entry list
yields an antichain, and when some existing entry already subsumes the new
fact the returned list is identical to the input. -/
theorem tms_assimilate_one_antichain_and_noop (l : List VS) (e : VS)
    (h : antichain l = true) :
    antichain (tms_assimilate_one l e) = true ∧
    (l.any (fun old => subsumes old e) = true → tms_assimilate_one l e = l) := by
  by_cases hany : l.any (fun old => subsumes old e) = true
  · exact ⟨by simpa [tms_assimilate_one, hany] using h,
      fun _ => by simp [tms_assimilate_one, hany]⟩
  · have hany' : l.any (fun old => subsumes old e) = false := by simp_all
    refine ⟨?_, fun hc => absurd hc hany⟩
    rw [tms_assimilate_one, if_neg (by simp [hany'])]
    rw [antichain, Bool.and_eq_true]
    constructor
    · rw [List.all_eq_true]
      intro b hb
      obtain ⟨hbl, hpb⟩ := List.mem_filter.mp hb
      have hbe : subsumes b e = false := by
        cases hsb : subsumes b e with
        | false => rfl
        | true =>
          have hT : l.any (fun old => subsumes old e) = true :=
            List.any_eq_true.mpr ⟨b, hbl, hsb⟩
          rw [hany'] at hT
          cases hT
      simp only [Bool.and_eq_true]
      exact ⟨hpb, by simp [hbe]⟩
    · exact antichain_filter _ l h

/-- C5 witness instance: the entry 5·{} subsumes the incoming 5·{P1}, so
assimilation is a no-op and the antichain is preserved. -/
theorem tms_assimilate_one_witness :
    antichain (tms_assimilate_one [⟨.num (.fin 5), ∅⟩] ⟨.num (.fin 5), {⟨0, "P1"⟩}⟩) = true ∧
    tms_assimilate_one [⟨.num (.fin 5), ∅⟩] ⟨.num (.fin 5), {⟨0, "P1"⟩}⟩ =
      [⟨.num (.fin 5), ∅⟩] :=
  ⟨(tms_assimilate_one_antichain_and_noop _ _ (by decide)).1,
   (tms_assimilate_one_antichain_and_noop _ _ (by decide)).2 (by decide)⟩

/-- C8 amended: `new_neighbor` is idempotent in both implementations —
registering twice leaves one occurrence and the second registration is a
silent no-op; only the prototype Cell of cells.py alerts the newly
registered propagator, the live Cell of cell.py registers without
alerting (there, `Propagator.__init__` alerts the propagator after
wiring). -/
theorem new_neighbor_idempotent_and_alert_behavior (c : CellS) (p : ℕ) :
    (c.neighbors.contains p = false →
       (CellPy.new_neighbor c p).1.neighbors.count p = 1 ∧
       (CellPy.new_neighbor c p).2 = false ∧
       (CellsProto.new_neighbor c p).1.neighbors.count p = 1 ∧
       (CellsProto.new_neighbor c p).2 = true) ∧
    CellPy.new_neighbor (CellPy.new_neighbor c p).1 p = ((CellPy.new_neighbor c p).1, false) ∧
    CellsProto.new_neighbor (CellsProto.new_neighbor c p).1 p =
      ((CellsProto.new_neighbor c p).1, false) := by
  by_cases hm : p ∈ c.neighbors
  · have hc : c.neighbors.contains p = true := by simpa using hm
    refine ⟨?_, ?_, ?_⟩
    · intro h
      rw [hc] at h
      cases h
    · simp [CellPy.new_neighbor, hc, hm]
    · simp [CellsProto.new_neighbor, hc, hm]
  · have hc : c.neighbors.contains p = false := by simpa using hm
    have hcount : c.neighbors.count p = 0 := List.count_eq_zero.mpr hm
    have hcnt1 : (c.neighbors ++ [p]).count p = 1 := by
      rw [List.count_append, hcount]
      simp
    refine ⟨fun _ => ?_, ?_, ?_⟩
    · refine ⟨?_, ?_, ?_, ?_⟩ <;>
        simp [CellPy.new_neighbor, CellsProto.new_neighbor, hc, hm, hcnt1]
    · simp [CellPy.new_neighbor, hc, hm]
    · simp [CellsProto.new_neighbor, hc, hm]

/-- C8 amended, witness instance. -/
theorem new_neighbor_idempotent_witness :
    (CellPy.new_neighbor ⟨"a", vNothing, []⟩ 7).1.neighbors.count 7 = 1 :=
  ((new_neighbor_idempotent_and_alert_behavior ⟨"a", vNothing, []⟩ 7).1 (by decide)).1

/-- C10 amended: `bring_in` on an already-believed premise and `kick_out`
on a premise not believed are no-ops that alert nobody; a `kick_out` alert
implies the premise was believed, and a `bring_in` alert implies it was
not — but for a string naming no believed premise, `bring_in` alerts all
propagators while leaving the worldview unchanged. -/
theorem worldview_noop_and_alert_conditions (w : List Premise) (pr : PremiseRef) :
    (premise_in w pr = true → bring_in w pr = (w, false)) ∧
    (premise_in w pr = false → kick_out w pr = (w, false)) ∧
    ((bring_in w pr).2 = true → premise_in w pr = false) ∧
    ((kick_out w pr).2 = true → premise_in w pr = true) := by
  refine ⟨?_, ?_, ?_, ?_⟩
  · intro h; simp [bring_in, h]
  · intro h
    cases pr with
    | obj p =>
      have hc : w.contains p = false := h
      have hmm : p ∉ w := by simpa using hc
      simp [kick_out, hc, hmm]
    | byName s =>
      have h' : w.any (fun p => p.name == s) = false := h
      have hf : w.find? (fun p => p.name == s) = none := by
        rw [List.find?_eq_none]
        intro x hx
        cases hxs : (x.name == s) with
        | false => simp
        | true =>
          have hT : w.any (fun p => p.name == s) = true :=
            List.any_eq_true.mpr ⟨x, hx, hxs⟩
          rw [h'] at hT
          cases hT
      simp [kick_out, hf]
  · intro h
    by_cases hp : premise_in w pr = true
    · unfold bring_in at h
      rw [if_pos hp] at h
      cases h
    · exact eq_false_of_ne_true hp
  · intro h
    cases pr with
    | obj p =>
      cases hc : w.contains p with
      | true => simpa [premise_in] using hc
      | false =>
        have hmm : p ∉ w := by simpa using hc
        rw [kick_out] at h
        simp [hc, hmm] at h
    | byName s =>
      cases hf : w.find? (fun p => p.name == s) with
      | none => rw [kick_out] at h; simp [hf] at h
      | some a =>
        have ha := List.find?_some hf
        have hm := List.mem_of_find?_eq_some hf
        simp only [premise_in, List.any_eq_true]
        exact ⟨a, hm, ha⟩

/-- C10 amended, witness instance. -/
theorem worldview_noop_witness :
    bring_in [⟨0, "P1"⟩] (.obj ⟨0, "P1"⟩) = ([⟨0, "P1"⟩], false) :=
  (worldview_noop_and_alert_conditions [⟨0, "P1"⟩] (.obj ⟨0, "P1"⟩)).1 (by decide)

end PropNet
